import Mathlib

/-!
# Backtest simulation engine of trading_bot_golang — shallow embedding

This file embeds the backtest core of the repository (package `backtest`,
function `RunBacktest` and its analytics helpers, together with the data
types it uses from packages `order`, `strategy` and `data`) and proves, or
refutes, the specified properties of that core.

Conventions of the embedding:
* Go `float64` quantities are modelled as exact rationals `ℚ` wherever the
  source only adds, subtracts, multiplies and compares them (portfolio cash,
  prices, profits).  Where the source divides and the divisor can be zero,
  IEEE-754 semantics (NaN, ±Inf) matter and the value is modelled by the
  surrogate type `GoFloat` below, which tracks NaN and the infinities
  exactly and carries an exact rational otherwise.
* Go `int` counters that only ever increase from zero are modelled as `ℕ`;
  the buy-lot size, obtained by `int(math.Floor(...))` and possibly
  negative, is modelled as `ℤ`.
* The Go `map[string]Balance` is modelled as a total function
  `String → Balance`: reading an absent key in Go yields the zero `Balance`,
  which is the base function here.
* `time.Time` values only flow through the simulator into trade records
  (the source formats the bar's integer timestamp and re-parses it); the
  embedding carries the bar's raw integer timestamp instead, which is
  injective on the values the claims touch.
-/

namespace TradingBot

/-- Surrogate for Go `float64` results of divisions that can involve a zero
divisor: `nan` is IEEE NaN, `inf true` is `+Inf`, `inf false` is `-Inf`,
and `val q` is an ordinary finite value.  Signed zero is not modelled: the
only zero divisors reachable in this program arise from values initialised
to (positive) zero. -/
inductive GoFloat where
  | nan : GoFloat
  | inf : Bool → GoFloat
  | val : ℚ → GoFloat
deriving DecidableEq, Repr

/-- Division of two finite `float64` values (`a / b` in Go): for `b = 0`
this follows IEEE-754 with a positive zero divisor. -/
def goDivQ (a b : ℚ) : GoFloat :=
  if b = 0 then (if a = 0 then .nan else .inf (decide (0 < a))) else .val (a / b)

/-- Multiplication of a `float64` by a positive finite constant (the source
only multiplies a possibly-non-finite value by the literal `100`). -/
def goMulPos (x : GoFloat) (q : ℚ) : GoFloat :=
  match x with
  | .nan => .nan
  | .inf p => .inf p
  | .val a => .val (a * q)

/-- Go `math.Sqrt` on the surrogate.  The square root of a nonnegative
rational is irrational in general; the finite value is approximated by
`Rat.sqrt`.  No theorem below depends on the finite numeric value, only on
the NaN/infinity structure, which is exact (`math.Sqrt` of a negative value
or NaN is NaN). -/
def goSqrt : GoFloat → GoFloat
  | .nan => .nan
  | .inf p => if p then .inf true else .nan
  | .val q => if q < 0 then .nan else .val (Rat.sqrt q)

/-- IEEE `>` on the surrogate: any comparison with NaN is false. -/
def goGt : GoFloat → GoFloat → Bool
  | .nan, _ => false
  | _, .nan => false
  | .inf p, .inf q => p && !q
  | .inf p, .val _ => p
  | .val _, .inf q => !q
  | .val a, .val b => decide (b < a)

/-- IEEE `<=` on the surrogate: any comparison with NaN is false. -/
def goLe : GoFloat → GoFloat → Bool
  | .nan, _ => false
  | _, .nan => false
  | .inf p, .inf q => !p || q
  | .inf p, .val _ => !p
  | .val _, .inf q => q
  | .val a, .val b => decide (a ≤ b)

/-- Division of a finite `float64` by a possibly-non-finite one (used for
the Sharpe ratio's `(mean - riskFreeRate) / stdDev`): a finite value divided
by an infinity is zero, anything divided by NaN is NaN. -/
def goDivF (a : ℚ) (b : GoFloat) : GoFloat :=
  match b with
  | .nan => .nan
  | .inf _ => .val 0
  | .val q => goDivQ a q

/-- Model of order.Balance (order/order.go): Value, Available, Blocked. -/
structure Balance where
  value : ℚ
  available : ℚ
  blocked : ℚ
deriving DecidableEq, Repr

/-- Model of order.Position (order/order.go), restricted to the fields the
backtest reads or writes: Symbol, Quantity, AveragePrice, OpenDate. -/
structure Position where
  symbol : String
  quantity : ℤ
  averagePrice : ℚ
  openDate : ℤ
deriving DecidableEq, Repr

/-- Model of order.PortfolioInfo (order/order.go): the balances map and the open
positions.  The AccountInfo field is never touched by the backtest and is
omitted. -/
structure PortfolioInfo where
  balances : String → Balance
  positions : List Position

/-- Model of strategy.TradingSignal (strategy/strategy.go). -/
structure TradingSignal where
  symbol : String
  side : String
  price : ℚ
deriving DecidableEq, Repr

/-- One candle of `data.FinamData.C` (the per-bar OHLCV record the backtest
converts into its DataFrame, columns "0".."5" = O, C, H, L, V, T). -/
structure Candle where
  o : ℚ
  c : ℚ
  h : ℚ
  l : ℚ
  v : ℚ
  t : ℤ
deriving DecidableEq, Repr, Inhabited

/-- Model of data.Quote, restricted to the fields the backtest fills in for the
synthetic current quote (Price and Time). -/
structure Quote where
  price : ℚ
  time : ℤ
deriving DecidableEq, Repr

/-- Model of backtest.TradeInfo.  A buy record leaves the close fields and the
profit at their Go zero values. -/
structure TradeInfo where
  symbol : String
  openTime : ℤ
  openPrice : ℚ
  closeTime : ℤ
  closePrice : ℚ
  profit : ℚ
  side : String
deriving DecidableEq, Repr

/-- The mutable state of the replay loop of `RunBacktest`: the portfolio
plus the local accumulators declared at lines 324-332 of the source. -/
structure SimState where
  portfolio : PortfolioInfo
  totalTrades : ℕ
  profitableTrades : ℕ
  unprofitableTrades : ℕ
  totalProfit : ℚ
  tradeLog : List TradeInfo
  maxEquity : ℚ
  maxDrawdown : GoFloat

/-- Model of backtest.BacktestResult (start/end dates are pass-through parameters
and are omitted). -/
structure BacktestResult where
  totalTrades : ℕ
  profitableTrades : ℕ
  unprofitableTrades : ℕ
  totalProfit : ℚ
  averageProfit : GoFloat
  maxDrawdown : GoFloat
  sharpeRatio : GoFloat
  tradingLog : List TradeInfo

/-- Go map update `m[k] = v` on the function model. -/
def mapUpdate (m : String → Balance) (k : String) (v : Balance) : String → Balance :=
  fun c => if c = k then v else m c

/-- Shorthand for the expression `portfolio.Balances["RUB"].Available` that
the simulator reads everywhere. -/
def availOf (p : PortfolioInfo) : ℚ := (p.balances "RUB").available

/-- The sell-side scan of lines 402-437: find the first position whose
symbol matches and whose quantity is positive, returning it together with
the position list with that one entry removed
(`append(positions[:i], positions[i+1:]...)`). -/
def findOpen : List Position → String → Option (Position × List Position)
  | [], _ => none
  | p :: rest, sym =>
    if p.symbol = sym ∧ 0 < p.quantity then some (p, rest)
    else
      match findOpen rest sym with
      | none => none
      | some (q, rest') => some (q, p :: rest')

/-- The drawdown expression of line 445:
`(maxEquity - currentEquity) / maxEquity * 100`, as a `float64`. -/
def drawdownOf (maxEquity currentEquity : ℚ) : GoFloat :=
  goMulPos (goDivQ (maxEquity - currentEquity) maxEquity) 100

/-- Lines 440-448, run after each signal: update `maxEquity` with the
current cash-only equity, then update `maxDrawdown` if the freshly computed
drawdown exceeds it (an IEEE comparison, hence false for NaN). -/
def updateDrawdown (s : SimState) : SimState :=
  let currentEquity := availOf s.portfolio
  let maxEquity := if s.maxEquity < currentEquity then currentEquity else s.maxEquity
  let drawdown := drawdownOf maxEquity currentEquity
  let maxDrawdown := if goGt drawdown s.maxDrawdown then drawdown else s.maxDrawdown
  { s with maxEquity := maxEquity, maxDrawdown := maxDrawdown }

/-- The buy-side lot computation of line 367:
`int(math.Floor((portfolio.Balances["RUB"].Available * 0.01) / signal.Price))`. -/
def lotsOf (p : PortfolioInfo) (signal : TradingSignal) : ℤ :=
  ⌊(availOf p * (0.01 : ℚ)) / signal.price⌋

/-- Lines 363-438: the signal branch proper (buy branch, sell branch, or
nothing). -/
def applySignal (currentBarTime : ℤ) (s : SimState) (signal : TradingSignal) : SimState :=
    if signal.side = "buy" ∧ signal.price ≤ availOf s.portfolio then
      let positionSizeLots : ℤ := lotsOf s.portfolio signal
      if positionSizeLots = 0 then s
      else
        let newPosition : Position :=
          { symbol := signal.symbol, quantity := positionSizeLots,
            averagePrice := signal.price, openDate := currentBarTime }
        let balance := s.portfolio.balances "RUB"
        let balance' :=
          { balance with
              available := balance.available - signal.price * (positionSizeLots : ℚ) }
        { s with
            totalTrades := s.totalTrades + 1,
            portfolio :=
              { balances := mapUpdate s.portfolio.balances "RUB" balance',
                positions := s.portfolio.positions ++ [newPosition] },
            tradeLog := s.tradeLog ++
              [{ symbol := signal.symbol, side := "buy", openPrice := signal.price,
                 openTime := currentBarTime, closeTime := 0, closePrice := 0, profit := 0 }] }
    else if signal.side = "sell" then
      match findOpen s.portfolio.positions signal.symbol with
      | none => s
      | some (position, remaining) =>
        let profit := (signal.price - position.averagePrice) * (position.quantity : ℚ)
        let balance := s.portfolio.balances "RUB"
        let balance' :=
          { balance with
              available := balance.available + signal.price * (position.quantity : ℚ) }
        { s with
            totalTrades := s.totalTrades + 1,
            portfolio :=
              { balances := mapUpdate s.portfolio.balances "RUB" balance',
                positions := remaining },
            totalProfit := s.totalProfit + profit,
            profitableTrades :=
              if 0 < profit then s.profitableTrades + 1 else s.profitableTrades,
            unprofitableTrades :=
              if 0 < profit then s.unprofitableTrades else s.unprofitableTrades + 1,
            tradeLog := s.tradeLog ++
              [{ symbol := signal.symbol, side := "sell",
                 openPrice := position.averagePrice, openTime := position.openDate,
                 closePrice := signal.price, closeTime := currentBarTime,
                 profit := profit }] }
    else s

/-- Lines 363-448: processing of one strategy signal, followed by the
per-signal drawdown update of lines 440-448. -/
def processSignal (currentBarTime : ℤ) (s : SimState) (signal : TradingSignal) : SimState :=
  updateDrawdown (applySignal currentBarTime s signal)

/-- The strategy capability `strategy.Strategy.GetSignals`: current quote,
the history DataFrame, the portfolio; `none` models a non-nil error (the
loop logs and skips that bar). -/
def Strategy : Type :=
  Quote → List Candle → PortfolioInfo → Option (List TradingSignal)

/-- The synthetic current quote built at lines 347-350: close price
(column "1") and the bar timestamp of bar `i`. -/
def quoteAt (bars : List Candle) (i : ℕ) : Quote :=
  { price := (bars.getD i default).c, time := (bars.getD i default).t }

/-- The history argument passed to the strategy at step `i`: the source
passes `&historyDf`, the complete DataFrame, not a slice of it. -/
def historyArg (bars : List Candle) (_i : ℕ) : List Candle := bars

/-- One iteration of the replay loop (lines 337-449) at bar index `i`. -/
def processBar (strat : Strategy) (bars : List Candle) (s : SimState) (i : ℕ) : SimState :=
  match strat (quoteAt bars i) (historyArg bars i) s.portfolio with
  | none => s
  | some signals => signals.foldl (processSignal (bars.getD i default).t) s

/-- Line 335: the warm-up period the loop starts from. -/
def strategyPeriod : ℕ := 10

/-- The bar indices visited by the loop `for i := strategyPeriod; i < Nrow; i++`. -/
def barIndices (n : ℕ) : List ℕ := List.range' strategyPeriod (n - strategyPeriod)

/-- Lines 316-332: the initial portfolio (a balances map holding only the
"RUB" entry with `Available = initialCapital`) and the zero-initialised
accumulators; `maxEquity` starts at the initial capital. -/
def initState (initialCapital : ℚ) : SimState :=
  { portfolio :=
      { balances := mapUpdate (fun _ => ⟨0, 0, 0⟩) "RUB" ⟨0, initialCapital, 0⟩,
        positions := [] },
    totalTrades := 0, profitableTrades := 0, unprofitableTrades := 0,
    totalProfit := 0, tradeLog := [],
    maxEquity := initialCapital, maxDrawdown := .val 0 }

/-- The loop state after the first `k` visited bars. -/
def stateAfterBars (strat : Strategy) (bars : List Candle) (initialCapital : ℚ)
    (k : ℕ) : SimState :=
  ((barIndices bars.length).take k).foldl (processBar strat bars) (initState initialCapital)

/-- Truncated bar iteration: like `processBar` but folding only the first
`j` of the returned signals (used to name the state after each individual
fill inside a bar). -/
def barStepTake (strat : Strategy) (bars : List Candle) (s : SimState) (i j : ℕ) :
    SimState :=
  match strat (quoteAt bars i) (historyArg bars i) s.portfolio with
  | none => s
  | some signals => (signals.take j).foldl (processSignal (bars.getD i default).t) s

/-- Observation point inside the loop: the state after the first `k`
visited bars and then the first `j` signals of the next bar (clamped when
`j` exceeds the number of signals, or `k` the number of bars). -/
def midState (strat : Strategy) (bars : List Candle) (initialCapital : ℚ)
    (k j : ℕ) : SimState :=
  match (barIndices bars.length)[k]? with
  | none => stateAfterBars strat bars initialCapital k
  | some i => barStepTake strat bars (stateAfterBars strat bars initialCapital k) i j

/-- The loop state after the full replay. -/
def runStates (strat : Strategy) (bars : List Candle) (initialCapital : ℚ) : SimState :=
  (barIndices bars.length).foldl (processBar strat bars) (initState initialCapital)

/-- Function calculateMean (lines 501-510). -/
def calculateMean (data : List ℚ) : ℚ :=
  if data.length = 0 then 0
  else (data.foldl (· + ·) 0) / (data.length : ℚ)

/-- Function calculateStandardDeviation (lines 487-498): guarded only for an empty
list; the variance divides by `n - 1`, which is zero for `n = 1`. -/
def calculateStandardDeviation (data : List ℚ) : GoFloat :=
  if data.length = 0 then .val 0
  else
    let mean := calculateMean data
    let sumSquaredDeviations := data.foldl (fun acc x => acc + (x - mean) ^ 2) 0
    goSqrt (goDivQ sumSquaredDeviations ((data.length : ℚ) - 1))

/-- Function calculateSharpeRatio (lines 472-484): guarded only for an empty trade
log. -/
def calculateSharpeRatio (trades : List TradeInfo) (riskFreeRate : ℚ) : GoFloat :=
  if trades.length = 0 then .val 0
  else
    let returns := trades.map (·.profit)
    let stdDev := calculateStandardDeviation returns
    let meanReturn := calculateMean returns
    goDivF (meanReturn - riskFreeRate) stdDev

/-- Function RunBacktest (lines 279-469) downstream of data loading: replay the
loop, then compute `averageProfit = totalProfit / float64(totalTrades)`
(unguarded float division, line 453) and the Sharpe ratio at risk-free rate
0.02, and bundle the result. -/
def RunBacktest (strat : Strategy) (bars : List Candle) (initialCapital : ℚ) :
    BacktestResult :=
  let s := runStates strat bars initialCapital
  { totalTrades := s.totalTrades,
    profitableTrades := s.profitableTrades,
    unprofitableTrades := s.unprofitableTrades,
    totalProfit := s.totalProfit,
    averageProfit := goDivQ s.totalProfit (s.totalTrades : ℚ),
    maxDrawdown := s.maxDrawdown,
    sharpeRatio := calculateSharpeRatio s.tradeLog (0.02 : ℚ),
    tradingLog := s.tradeLog }


/-! ## Helper lemmas on the float surrogate order -/

lemma goLe_refl (x : GoFloat) (h : x ≠ .nan) : goLe x x = true := by
  cases x with
  | nan => exact absurd rfl h
  | inf p => cases p <;> simp [goLe]
  | val q => simp [goLe]

lemma goLe_left_ne_nan {a b : GoFloat} (h : goLe a b = true) : a ≠ .nan := by
  intro ha; subst ha; simp [goLe] at h

lemma goLe_right_ne_nan {a b : GoFloat} (h : goLe a b = true) : b ≠ .nan := by
  intro hb; subst hb; cases a <;> simp [goLe] at h

lemma goLe_trans {a b c : GoFloat} (h1 : goLe a b = true) (h2 : goLe b c = true) :
    goLe a c = true := by
  cases a with
  | nan => simp [goLe] at h1
  | inf p =>
    cases b <;> cases c <;> cases p <;> simp_all [goLe]
  | val q =>
    cases b with
    | nan => simp [goLe] at h1
    | inf pb =>
      cases pb
      · simp [goLe] at h1
      · cases c <;> simp_all [goLe]
    | val qb =>
      cases c with
      | nan => simp [goLe] at h2
      | inf pc => simp_all [goLe]
      | val qc =>
        simp only [goLe, decide_eq_true_eq] at h1 h2 ⊢
        exact le_trans h1 h2

lemma goLe_of_goGt {a b : GoFloat} (h : goGt a b = true) : goLe b a = true := by
  cases a <;> cases b <;> simp_all [goGt, goLe]
  case val.val => exact le_of_lt h

lemma goGt_left_ne_nan {a b : GoFloat} (h : goGt a b = true) : a ≠ .nan := by
  intro ha; subst ha; simp [goGt] at h

lemma ite_goGt_goLe {md d : GoFloat} (h : md ≠ .nan) :
    goLe md (if goGt d md then d else md) = true := by
  by_cases hc : goGt d md = true
  · rw [if_pos hc]; exact goLe_of_goGt hc
  · rw [if_neg (by simp [hc])]; exact goLe_refl _ h

lemma ite_goGt_ne_nan {md d : GoFloat} (h : md ≠ .nan) :
    (if goGt d md then d else md) ≠ .nan := by
  by_cases hc : goGt d md = true
  · rw [if_pos hc]; exact goGt_left_ne_nan hc
  · rw [if_neg (by simp [hc])]; exact h

/-! ## Helper lemmas on the drawdown update -/

lemma updateDrawdown_portfolio (s : SimState) :
    (updateDrawdown s).portfolio = s.portfolio := rfl

lemma updateDrawdown_totalTrades (s : SimState) :
    (updateDrawdown s).totalTrades = s.totalTrades := rfl

lemma updateDrawdown_profitableTrades (s : SimState) :
    (updateDrawdown s).profitableTrades = s.profitableTrades := rfl

lemma updateDrawdown_unprofitableTrades (s : SimState) :
    (updateDrawdown s).unprofitableTrades = s.unprofitableTrades := rfl

lemma updateDrawdown_totalProfit (s : SimState) :
    (updateDrawdown s).totalProfit = s.totalProfit := rfl

lemma updateDrawdown_tradeLog (s : SimState) :
    (updateDrawdown s).tradeLog = s.tradeLog := rfl

lemma updateDrawdown_maxEquity_le (s : SimState) :
    s.maxEquity ≤ (updateDrawdown s).maxEquity := by
  simp only [updateDrawdown]
  split
  · exact le_of_lt (by assumption)
  · exact le_refl _

lemma updateDrawdown_maxDrawdown_goLe (s : SimState) (h : s.maxDrawdown ≠ .nan) :
    goLe s.maxDrawdown (updateDrawdown s).maxDrawdown = true := by
  simp only [updateDrawdown]
  exact ite_goGt_goLe h

lemma updateDrawdown_maxDrawdown_ne_nan (s : SimState) (h : s.maxDrawdown ≠ .nan) :
    (updateDrawdown s).maxDrawdown ≠ .nan := by
  simp only [updateDrawdown]
  exact ite_goGt_ne_nan h

/-! ## Helper lemmas on the position scan -/

lemma findOpen_matches {ps : List Position} {sym : String} {p : Position}
    {rest : List Position} (h : findOpen ps sym = some (p, rest)) :
    p.symbol = sym ∧ 0 < p.quantity := by
  induction ps generalizing rest with
  | nil => simp [findOpen] at h
  | cons a l ih =>
    by_cases hc : a.symbol = sym ∧ 0 < a.quantity
    · rw [findOpen, if_pos hc] at h
      obtain ⟨rfl, rfl⟩ : a = p ∧ l = rest := by
        constructor <;> injection h with h1 <;> [exact congrArg Prod.fst h1;
          exact congrArg Prod.snd h1]
      exact hc
    · rw [findOpen, if_neg hc] at h
      cases hfo : findOpen l sym with
      | none => rw [hfo] at h; exact absurd h (by simp)
      | some pr =>
        rw [hfo] at h
        obtain ⟨q, rest1⟩ := pr
        have : q = p ∧ a :: rest1 = rest := by
          constructor <;> injection h with h1 <;> [exact congrArg Prod.fst h1;
            exact congrArg Prod.snd h1]
        obtain ⟨rfl, rfl⟩ := this
        exact ih hfo

lemma findOpen_first (pre : List Position) (pos : Position) (post : List Position)
    (sym : String)
    (hpre : ∀ q ∈ pre, ¬(q.symbol = sym ∧ 0 < q.quantity))
    (hsym : pos.symbol = sym) (hq : 0 < pos.quantity) :
    findOpen (pre ++ pos :: post) sym = some (pos, pre ++ post) := by
  induction pre with
  | nil => simp [findOpen, hsym, hq]
  | cons a l ih =>
    have ha : ¬(a.symbol = sym ∧ 0 < a.quantity) := hpre a (by simp)
    have ih' := ih (fun q hql => hpre q (by simp [hql]))
    rw [List.cons_append, findOpen, if_neg ha, ih']
    rfl


/-! ## Helper lemmas on map updates -/

lemma mapUpdate_same (m : String → Balance) (k : String) (v : Balance) :
    mapUpdate m k v k = v := by simp [mapUpdate]

lemma mapUpdate_other (m : String → Balance) (k : String) (v : Balance)
    (c : String) (h : c ≠ k) : mapUpdate m k v c = m c := by simp [mapUpdate, h]

/-! ## Case analysis of the signal branch -/

lemma applySignal_buy_fill (t : ℤ) (s : SimState) (sg : TradingSignal)
    (hside : sg.side = "buy")
    (haff : sg.price ≤ availOf s.portfolio)
    (hlots : lotsOf s.portfolio sg ≠ 0) :
    applySignal t s sg =
      { s with
          totalTrades := s.totalTrades + 1,
          portfolio :=
            { balances := mapUpdate s.portfolio.balances "RUB"
                { s.portfolio.balances "RUB" with
                    available := availOf s.portfolio
                      - sg.price * ((lotsOf s.portfolio sg : ℤ) : ℚ) },
              positions := s.portfolio.positions ++
                [{ symbol := sg.symbol, quantity := lotsOf s.portfolio sg,
                   averagePrice := sg.price, openDate := t }] },
          tradeLog := s.tradeLog ++
            [{ symbol := sg.symbol, side := "buy", openPrice := sg.price,
               openTime := t, closeTime := 0, closePrice := 0, profit := 0 }] } := by
  rw [applySignal, if_pos ⟨hside, haff⟩, if_neg hlots]
  rfl

lemma applySignal_buy_reject (t : ℤ) (s : SimState) (sg : TradingSignal)
    (hside : sg.side = "buy")
    (haff : sg.price ≤ availOf s.portfolio)
    (hlots : lotsOf s.portfolio sg = 0) :
    applySignal t s sg = s := by
  rw [applySignal, if_pos ⟨hside, haff⟩, if_pos hlots]

lemma applySignal_skip (t : ℤ) (s : SimState) (sg : TradingSignal)
    (h1 : ¬(sg.side = "buy" ∧ sg.price ≤ availOf s.portfolio))
    (h2 : ¬sg.side = "sell") :
    applySignal t s sg = s := by
  rw [applySignal, if_neg h1, if_neg h2]

lemma applySignal_sell_none (t : ℤ) (s : SimState) (sg : TradingSignal)
    (hside : sg.side = "sell")
    (hfo : findOpen s.portfolio.positions sg.symbol = none) :
    applySignal t s sg = s := by
  have h1 : ¬(sg.side = "buy" ∧ sg.price ≤ availOf s.portfolio) := by
    rw [hside]; simp
  rw [applySignal, if_neg h1, if_pos hside, hfo]

lemma applySignal_sell_fill (t : ℤ) (s : SimState) (sg : TradingSignal)
    (pos : Position) (rest : List Position)
    (hside : sg.side = "sell")
    (hfo : findOpen s.portfolio.positions sg.symbol = some (pos, rest)) :
    applySignal t s sg =
      { s with
          totalTrades := s.totalTrades + 1,
          portfolio :=
            { balances := mapUpdate s.portfolio.balances "RUB"
                { s.portfolio.balances "RUB" with
                    available := availOf s.portfolio + sg.price * (pos.quantity : ℚ) },
              positions := rest },
          totalProfit := s.totalProfit + (sg.price - pos.averagePrice) * (pos.quantity : ℚ),
          profitableTrades :=
            if 0 < (sg.price - pos.averagePrice) * (pos.quantity : ℚ)
            then s.profitableTrades + 1 else s.profitableTrades,
          unprofitableTrades :=
            if 0 < (sg.price - pos.averagePrice) * (pos.quantity : ℚ)
            then s.unprofitableTrades else s.unprofitableTrades + 1,
          tradeLog := s.tradeLog ++
            [{ symbol := sg.symbol, side := "sell", openPrice := pos.averagePrice,
               openTime := pos.openDate, closePrice := sg.price, closeTime := t,
               profit := (sg.price - pos.averagePrice) * (pos.quantity : ℚ) }] } := by
  have h1 : ¬(sg.side = "buy" ∧ sg.price ≤ availOf s.portfolio) := by
    rw [hside]; simp
  rw [applySignal, if_neg h1, if_pos hside, hfo]
  rfl

lemma applySignal_maxEquity (t : ℤ) (s : SimState) (sg : TradingSignal) :
    (applySignal t s sg).maxEquity = s.maxEquity := by
  simp only [applySignal]
  (repeat' split) <;> rfl

lemma applySignal_maxDrawdown (t : ℤ) (s : SimState) (sg : TradingSignal) :
    (applySignal t s sg).maxDrawdown = s.maxDrawdown := by
  simp only [applySignal]
  (repeat' split) <;> rfl


/-! ## Cash non-negativity -/

/-- Hypothesis on a strategy: every signal it ever emits carries a positive
price. -/
def PosPrices (strat : Strategy) : Prop :=
  ∀ q hist p sigs, strat q hist p = some sigs → ∀ sg ∈ sigs, 0 < sg.price

lemma availOf_updateDrawdown (s : SimState) :
    availOf (updateDrawdown s).portfolio = availOf s.portfolio := by
  rw [updateDrawdown_portfolio]

lemma processSignal_avail_nonneg (t : ℤ) (s : SimState) (sg : TradingSignal)
    (hp : 0 < sg.price) (h : 0 ≤ availOf s.portfolio) :
    0 ≤ availOf (processSignal t s sg).portfolio := by
  rw [processSignal, availOf_updateDrawdown]
  by_cases h1 : sg.side = "buy" ∧ sg.price ≤ availOf s.portfolio
  · by_cases h2 : lotsOf s.portfolio sg = 0
    · rw [applySignal_buy_reject t s sg h1.1 h1.2 h2]; exact h
    · rw [applySignal_buy_fill t s sg h1.1 h1.2 h2]
      simp only [availOf, mapUpdate_same]
      have hfl : ((lotsOf s.portfolio sg : ℤ) : ℚ) ≤
          availOf s.portfolio * (0.01 : ℚ) / sg.price := Int.floor_le _
      have hmul : sg.price * ((lotsOf s.portfolio sg : ℤ) : ℚ) ≤
          availOf s.portfolio * (0.01 : ℚ) := by
        have h3 := mul_le_mul_of_nonneg_left hfl (le_of_lt hp)
        calc sg.price * ((lotsOf s.portfolio sg : ℤ) : ℚ)
            ≤ sg.price * (availOf s.portfolio * (0.01 : ℚ) / sg.price) := h3
          _ = availOf s.portfolio * (0.01 : ℚ) := by field_simp
      have hc : availOf s.portfolio * (0.01 : ℚ) ≤ availOf s.portfolio := by nlinarith
      have he : availOf s.portfolio = (s.portfolio.balances "RUB").available := rfl
      rw [← he]
      linarith
  · by_cases hsell : sg.side = "sell"
    · cases hfo : findOpen s.portfolio.positions sg.symbol with
      | none => rw [applySignal_sell_none t s sg hsell hfo]; exact h
      | some pr =>
        obtain ⟨pos, rest⟩ := pr
        rw [applySignal_sell_fill t s sg pos rest hsell hfo]
        simp only [availOf, mapUpdate_same]
        have hq : (0 : ℚ) < (pos.quantity : ℚ) := by
          exact_mod_cast (findOpen_matches hfo).2
        have he : availOf s.portfolio = (s.portfolio.balances "RUB").available := rfl
        rw [← he]
        nlinarith
    · rw [applySignal_skip t s sg h1 hsell]; exact h

lemma foldl_preserves (P : SimState → Prop) {α : Type} (f : SimState → α → SimState)
    (hf : ∀ s a, P s → P (f s a)) :
    ∀ (l : List α) (s : SimState), P s → P (l.foldl f s) := by
  intro l
  induction l with
  | nil => exact fun s h => h
  | cons a l2 ih => exact fun s h => ih (f s a) (hf s a h)

lemma foldl_preserves_mem (P : SimState → Prop) {α : Type} (f : SimState → α → SimState) :
    ∀ (l : List α), (∀ s a, a ∈ l → P s → P (f s a)) →
      ∀ s : SimState, P s → P (l.foldl f s) := by
  intro l
  induction l with
  | nil => exact fun _ s h => h
  | cons a l2 ih =>
    intro hf s h
    exact ih (fun s2 b hb h2 => hf s2 b (List.mem_cons_of_mem a hb) h2)
      (f s a) (hf s a (List.mem_cons_self a l2) h)

lemma processBar_avail_nonneg (strat : Strategy) (bars : List Candle)
    (hp : PosPrices strat) (s : SimState) (i : ℕ) (h : 0 ≤ availOf s.portfolio) :
    0 ≤ availOf (processBar strat bars s i).portfolio := by
  rw [processBar]
  cases hres : strat (quoteAt bars i) (historyArg bars i) s.portfolio with
  | none => exact h
  | some sigs =>
    exact foldl_preserves_mem (fun s2 => 0 ≤ availOf s2.portfolio) _ sigs
      (fun s2 sg hsg h2 =>
        processSignal_avail_nonneg _ s2 sg (hp _ _ _ sigs hres sg hsg) h2) s h

lemma initState_avail (c0 : ℚ) : availOf (initState c0).portfolio = c0 := by
  simp [initState, availOf, mapUpdate]

lemma stateAfterBars_avail_nonneg (strat : Strategy) (bars : List Candle) (c0 : ℚ)
    (h0 : 0 ≤ c0) (hp : PosPrices strat) (k : ℕ) :
    0 ≤ availOf (stateAfterBars strat bars c0 k).portfolio := by
  rw [stateAfterBars]
  refine foldl_preserves (fun s => 0 ≤ availOf s.portfolio) _
    (fun s i hs => processBar_avail_nonneg strat bars hp s i hs) _ _ ?_
  show 0 ≤ availOf (initState c0).portfolio
  rw [initState_avail]
  exact h0


/-! ## Monotonicity of the performance trackers -/

lemma processSignal_maxEquity_le (t : ℤ) (s : SimState) (sg : TradingSignal) :
    s.maxEquity ≤ (processSignal t s sg).maxEquity := by
  rw [processSignal]
  have h := updateDrawdown_maxEquity_le (applySignal t s sg)
  rw [applySignal_maxEquity] at h
  exact h

lemma processSignal_maxDrawdown_goLe (t : ℤ) (s : SimState) (sg : TradingSignal)
    (h : s.maxDrawdown ≠ .nan) :
    goLe s.maxDrawdown (processSignal t s sg).maxDrawdown = true := by
  rw [processSignal]
  have h2 := updateDrawdown_maxDrawdown_goLe (applySignal t s sg)
    (by rw [applySignal_maxDrawdown]; exact h)
  rw [applySignal_maxDrawdown] at h2
  exact h2

lemma processSignal_maxDrawdown_ne_nan (t : ℤ) (s : SimState) (sg : TradingSignal)
    (h : s.maxDrawdown ≠ .nan) :
    (processSignal t s sg).maxDrawdown ≠ .nan := by
  rw [processSignal]
  exact updateDrawdown_maxDrawdown_ne_nan _ (by rw [applySignal_maxDrawdown]; exact h)

/-- Order relation between two loop states as seen by the performance
trackers: peak equity and maximum drawdown have not decreased.  A true
`goLe` forces both drawdown values to be non-NaN. -/
def TrackLe (s1 s2 : SimState) : Prop :=
  s1.maxEquity ≤ s2.maxEquity ∧ goLe s1.maxDrawdown s2.maxDrawdown = true

lemma TrackLe_refl (s : SimState) (h : s.maxDrawdown ≠ .nan) : TrackLe s s :=
  ⟨le_refl _, goLe_refl _ h⟩

lemma TrackLe_trans {s1 s2 s3 : SimState} (h1 : TrackLe s1 s2) (h2 : TrackLe s2 s3) :
    TrackLe s1 s3 :=
  ⟨le_trans h1.1 h2.1, goLe_trans h1.2 h2.2⟩

lemma processSignal_TrackLe (t : ℤ) (s : SimState) (sg : TradingSignal)
    (h : s.maxDrawdown ≠ .nan) : TrackLe s (processSignal t s sg) :=
  ⟨processSignal_maxEquity_le t s sg, processSignal_maxDrawdown_goLe t s sg h⟩

lemma foldl_TrackLe {α : Type} (f : SimState → α → SimState)
    (hf : ∀ s a, s.maxDrawdown ≠ .nan → TrackLe s (f s a))
    (hNN : ∀ s a, s.maxDrawdown ≠ .nan → (f s a).maxDrawdown ≠ .nan) :
    ∀ (l : List α) (s : SimState), s.maxDrawdown ≠ .nan →
      TrackLe s (l.foldl f s) ∧ (l.foldl f s).maxDrawdown ≠ .nan := by
  intro l
  induction l with
  | nil => exact fun s h => ⟨TrackLe_refl s h, h⟩
  | cons a l2 ih =>
    intro s h
    obtain ⟨m1, m2⟩ := ih (f s a) (hNN s a h)
    exact ⟨TrackLe_trans (hf s a h) m1, m2⟩

lemma processBar_TrackLe (strat : Strategy) (bars : List Candle)
    (s : SimState) (i : ℕ) (h : s.maxDrawdown ≠ .nan) :
    TrackLe s (processBar strat bars s i) ∧
      (processBar strat bars s i).maxDrawdown ≠ .nan := by
  rw [processBar]
  cases hres : strat (quoteAt bars i) (historyArg bars i) s.portfolio with
  | none => exact ⟨TrackLe_refl s h, h⟩
  | some sigs =>
    exact foldl_TrackLe _ (fun s2 sg h2 => processSignal_TrackLe _ s2 sg h2)
      (fun s2 sg h2 => processSignal_maxDrawdown_ne_nan _ s2 sg h2) sigs s h

lemma initState_maxDrawdown (c0 : ℚ) : (initState c0).maxDrawdown = .val 0 := rfl

lemma stateAfterBars_TrackLe_init (strat : Strategy) (bars : List Candle) (c0 : ℚ)
    (k : ℕ) :
    TrackLe (initState c0) (stateAfterBars strat bars c0 k) ∧
      (stateAfterBars strat bars c0 k).maxDrawdown ≠ .nan := by
  rw [stateAfterBars]
  refine foldl_TrackLe _ (fun s i h => (processBar_TrackLe strat bars s i h).1)
    (fun s i h => (processBar_TrackLe strat bars s i h).2) _ _ ?_
  rw [initState_maxDrawdown]
  exact fun hc => GoFloat.noConfusion hc

lemma stateAfterBars_ne_nan (strat : Strategy) (bars : List Candle) (c0 : ℚ) (k : ℕ) :
    (stateAfterBars strat bars c0 k).maxDrawdown ≠ .nan :=
  (stateAfterBars_TrackLe_init strat bars c0 k).2

lemma midState_zero (strat : Strategy) (bars : List Candle) (c0 : ℚ) (k : ℕ) :
    midState strat bars c0 k 0 = stateAfterBars strat bars c0 k := by
  unfold midState
  cases hk : (barIndices bars.length)[k]? with
  | none => rfl
  | some i =>
    dsimp only
    unfold barStepTake
    cases hres : strat (quoteAt bars i) (historyArg bars i)
        (stateAfterBars strat bars c0 k).portfolio with
    | none => rfl
    | some sigs => rfl

lemma midState_ne_nan (strat : Strategy) (bars : List Candle) (c0 : ℚ) (k j : ℕ) :
    (midState strat bars c0 k j).maxDrawdown ≠ .nan := by
  unfold midState
  cases hk : (barIndices bars.length)[k]? with
  | none => exact stateAfterBars_ne_nan strat bars c0 k
  | some i =>
    dsimp only
    unfold barStepTake
    cases hres : strat (quoteAt bars i) (historyArg bars i)
        (stateAfterBars strat bars c0 k).portfolio with
    | none => exact stateAfterBars_ne_nan strat bars c0 k
    | some sigs =>
      exact (foldl_TrackLe _ (fun s2 sg h2 => processSignal_TrackLe _ s2 sg h2)
        (fun s2 sg h2 => processSignal_maxDrawdown_ne_nan _ s2 sg h2) _ _
        (stateAfterBars_ne_nan strat bars c0 k)).2

lemma foldl_take_le {α : Type} (f : SimState → α → SimState) (l : List α)
    (s : SimState) {j j' : ℕ} (h : j ≤ j') :
    (l.take j').foldl f s = ((l.take j').drop j).foldl f ((l.take j).foldl f s) := by
  conv_lhs => rw [← List.take_append_drop j (l.take j'), List.foldl_append]
  rw [List.take_take, min_eq_left h]

lemma midState_mono_j (strat : Strategy) (bars : List Candle) (c0 : ℚ) (k : ℕ)
    {j j' : ℕ} (h : j ≤ j') :
    TrackLe (midState strat bars c0 k j) (midState strat bars c0 k j') := by
  unfold midState
  cases hk : (barIndices bars.length)[k]? with
  | none => exact TrackLe_refl _ (stateAfterBars_ne_nan strat bars c0 k)
  | some i =>
    dsimp only
    unfold barStepTake
    cases hres : strat (quoteAt bars i) (historyArg bars i)
        (stateAfterBars strat bars c0 k).portfolio with
    | none => exact TrackLe_refl _ (stateAfterBars_ne_nan strat bars c0 k)
    | some sigs =>
      dsimp only
      rw [foldl_take_le _ sigs _ h]
      refine (foldl_TrackLe _ (fun s2 sg h2 => processSignal_TrackLe _ s2 sg h2)
        (fun s2 sg h2 => processSignal_maxDrawdown_ne_nan _ s2 sg h2) _ _ ?_).1
      exact (foldl_TrackLe _ (fun s2 sg h2 => processSignal_TrackLe _ s2 sg h2)
        (fun s2 sg h2 => processSignal_maxDrawdown_ne_nan _ s2 sg h2) _ _
        (stateAfterBars_ne_nan strat bars c0 k)).2

lemma stateAfterBars_succ (strat : Strategy) (bars : List Candle) (c0 : ℚ) (k : ℕ) :
    stateAfterBars strat bars c0 (k + 1) =
      ((barIndices bars.length)[k]?.toList).foldl (processBar strat bars)
        (stateAfterBars strat bars c0 k) := by
  rw [stateAfterBars, stateAfterBars, List.take_succ, List.foldl_append]

lemma midState_le_next (strat : Strategy) (bars : List Candle) (c0 : ℚ) (k j : ℕ) :
    TrackLe (midState strat bars c0 k j) (stateAfterBars strat bars c0 (k + 1)) := by
  rw [stateAfterBars_succ]
  unfold midState
  cases hk : (barIndices bars.length)[k]? with
  | none =>
    exact TrackLe_refl _ (stateAfterBars_ne_nan strat bars c0 k)
  | some i =>
    dsimp only
    simp only [Option.toList, List.foldl_cons, List.foldl_nil]
    rw [processBar]
    unfold barStepTake
    cases hres : strat (quoteAt bars i) (historyArg bars i)
        (stateAfterBars strat bars c0 k).portfolio with
    | none => exact TrackLe_refl _ (stateAfterBars_ne_nan strat bars c0 k)
    | some sigs =>
      dsimp only
      have hnn : ((sigs.take j).foldl (processSignal (bars.getD i default).t)
          (stateAfterBars strat bars c0 k)).maxDrawdown ≠ .nan :=
        (foldl_TrackLe _ (fun s2 sg h2 => processSignal_TrackLe _ s2 sg h2)
          (fun s2 sg h2 => processSignal_maxDrawdown_ne_nan _ s2 sg h2) _ _
          (stateAfterBars_ne_nan strat bars c0 k)).2
      by_cases hj : j ≤ sigs.length
      · have hfull : sigs.foldl (processSignal (bars.getD i default).t)
            (stateAfterBars strat bars c0 k) =
            ((sigs.take sigs.length).drop j).foldl (processSignal (bars.getD i default).t)
              ((sigs.take j).foldl (processSignal (bars.getD i default).t)
                (stateAfterBars strat bars c0 k)) := by
          conv_lhs => rw [← List.take_length sigs]
          exact foldl_take_le _ sigs _ hj
        rw [hfull]
        exact (foldl_TrackLe _ (fun s2 sg h2 => processSignal_TrackLe _ s2 sg h2)
          (fun s2 sg h2 => processSignal_maxDrawdown_ne_nan _ s2 sg h2) _ _ hnn).1
      · have htake : sigs.take j = sigs := List.take_of_length_le (le_of_not_le hj)
        rw [htake] at hnn ⊢
        exact TrackLe_refl _ hnn

lemma stateAfterBars_mono (strat : Strategy) (bars : List Candle) (c0 : ℚ)
    {k k' : ℕ} (h : k ≤ k') :
    TrackLe (stateAfterBars strat bars c0 k) (stateAfterBars strat bars c0 k') := by
  induction k' with
  | zero =>
    have hz : k = 0 := Nat.le_zero.mp h
    subst hz
    exact TrackLe_refl _ (stateAfterBars_ne_nan strat bars c0 0)
  | succ n ih =>
    rcases Nat.lt_or_ge k (n + 1) with hlt | hge
    · have hk : k ≤ n := Nat.lt_succ_iff.mp hlt
      refine TrackLe_trans (ih hk) ?_
      have hnext := midState_le_next strat bars c0 n 0
      rw [midState_zero] at hnext
      exact hnext
    · have hk : k = n + 1 := le_antisymm h hge
      subst hk
      exact TrackLe_refl _ (stateAfterBars_ne_nan strat bars c0 (n + 1))

lemma midState_mono_lex (strat : Strategy) (bars : List Candle) (c0 : ℚ)
    {k j k' j' : ℕ} (h : k < k' ∨ (k = k' ∧ j ≤ j')) :
    TrackLe (midState strat bars c0 k j) (midState strat bars c0 k' j') := by
  rcases h with hlt | ⟨heq, hj⟩
  · refine TrackLe_trans (midState_le_next strat bars c0 k j) ?_
    refine TrackLe_trans (stateAfterBars_mono strat bars c0 hlt) ?_
    rw [← midState_zero]
    exact midState_mono_j strat bars c0 k' (Nat.zero_le j')
  · subst heq
    exact midState_mono_j strat bars c0 k hj


/-! ## Frame property of the balances map -/

lemma processSignal_balances_frame (t : ℤ) (s : SimState) (sg : TradingSignal) :
    (∀ c, c ≠ "RUB" →
        (processSignal t s sg).portfolio.balances c = s.portfolio.balances c) ∧
    ((processSignal t s sg).portfolio.balances "RUB").blocked
        = (s.portfolio.balances "RUB").blocked ∧
    ((processSignal t s sg).portfolio.balances "RUB").value
        = (s.portfolio.balances "RUB").value := by
  rw [processSignal, updateDrawdown_portfolio]
  by_cases h1 : sg.side = "buy" ∧ sg.price ≤ availOf s.portfolio
  · by_cases h2 : lotsOf s.portfolio sg = 0
    · rw [applySignal_buy_reject t s sg h1.1 h1.2 h2]
      exact ⟨fun c hc => rfl, rfl, rfl⟩
    · rw [applySignal_buy_fill t s sg h1.1 h1.2 h2]
      refine ⟨fun c hc => ?_, ?_, ?_⟩ <;> simp [mapUpdate]
      intro hc2
      exact absurd hc2 hc
  · by_cases hsell : sg.side = "sell"
    · cases hfo : findOpen s.portfolio.positions sg.symbol with
      | none =>
        rw [applySignal_sell_none t s sg hsell hfo]
        exact ⟨fun c hc => rfl, rfl, rfl⟩
      | some pr =>
        obtain ⟨pos, rest⟩ := pr
        rw [applySignal_sell_fill t s sg pos rest hsell hfo]
        refine ⟨fun c hc => ?_, ?_, ?_⟩ <;> simp [mapUpdate]
        intro hc2
        exact absurd hc2 hc
    · rw [applySignal_skip t s sg h1 hsell]
      exact ⟨fun c hc => rfl, rfl, rfl⟩

/-! ## Concrete runs used as witnesses and counterexamples -/

/-- A flat candle with the given close price, all other prices equal and a
zero timestamp. -/
def mkCandle (cl : ℚ) : Candle := { o := cl, c := cl, h := cl, l := cl, v := 0, t := 0 }

/-- Eleven flat bars whose bar number 10 closes at 10. -/
def c1bars : List Candle := List.replicate 10 (mkCandle 1) ++ [mkCandle 10]

/-- Eleven flat bars whose bar number 10 closes at 1; agrees with `c1bars`
strictly before index 10. -/
def c2bars : List Candle := List.replicate 10 (mkCandle 1) ++ [mkCandle 1]

/-- Twelve flat bars; the replay loop visits indices 10 and 11. -/
def bars12 : List Candle := List.replicate 12 (mkCandle 1)

/-- Eleven flat bars; the replay loop visits index 10 only. -/
def bars11 : List Candle := List.replicate 11 (mkCandle 1)

/-- The scenario-A buy signal: SBER at price 100. -/
def sigBuyA : TradingSignal := { symbol := "SBER", side := "buy", price := 100 }

/-- The scenario-B sell signal: SBER at price 110. -/
def sigSellB : TradingSignal := { symbol := "SBER", side := "sell", price := 110 }

/-- Strategy that always emits the single scenario-A buy signal. -/
def stratBuy : Strategy := fun _ _ _ => some [sigBuyA]

/-- Strategy that always emits no signals. -/
def stratNone : Strategy := fun _ _ _ => some []

/-- Strategy that inspects the close of the bar at index 10 of the history
it is handed and emits a buy signal only when that close exceeds 5: a
detector for look-ahead. -/
def stratDetect : Strategy := fun _ hist _ =>
  if 5 < (hist.getD 10 default).c then some [sigBuyA] else some []

lemma stratBuy_posPrices : PosPrices stratBuy := by
  intro q hist p sigs hres sg hsg
  simp only [stratBuy, Option.some.injEq] at hres
  subst hres
  simp only [List.mem_singleton] at hsg
  subst hsg
  norm_num [sigBuyA]

/-- The scenario-A state: one buy of SBER at 100 processed from initial
capital 100000. -/
def stateA : SimState := processSignal 0 (initState 100000) sigBuyA

lemma initState_positions (c0 : ℚ) : (initState c0).portfolio.positions = [] := rfl

lemma lotsA : lotsOf (initState 100000).portfolio sigBuyA = 10 := by
  rw [lotsOf, initState_avail]
  norm_num [sigBuyA]

lemma haffA : sigBuyA.price ≤ availOf (initState 100000).portfolio := by
  rw [initState_avail]; norm_num [sigBuyA]

lemma hlotsA : lotsOf (initState 100000).portfolio sigBuyA ≠ 0 := by
  rw [lotsA]; norm_num

lemma stateA_avail : availOf stateA.portfolio = 99000 := by
  rw [stateA, processSignal, availOf_updateDrawdown,
    applySignal_buy_fill 0 (initState 100000) sigBuyA rfl haffA hlotsA]
  show (mapUpdate (initState 100000).portfolio.balances "RUB" _ "RUB").available = _
  rw [mapUpdate_same]
  show availOf (initState 100000).portfolio
      - sigBuyA.price * ((lotsOf (initState 100000).portfolio sigBuyA : ℤ) : ℚ) = 99000
  rw [lotsA, initState_avail]
  norm_num [sigBuyA]

lemma stateA_positions : stateA.portfolio.positions
    = [{ symbol := "SBER", quantity := 10, averagePrice := 100, openDate := 0 }] := by
  rw [stateA, processSignal, updateDrawdown_portfolio,
    applySignal_buy_fill 0 (initState 100000) sigBuyA rfl haffA hlotsA]
  show (initState 100000).portfolio.positions ++ _ = _
  rw [initState_positions, lotsA]
  rfl

lemma stateA_totalTrades : stateA.totalTrades = 1 := by
  rw [stateA, processSignal, updateDrawdown_totalTrades,
    applySignal_buy_fill 0 (initState 100000) sigBuyA rfl haffA hlotsA]
  rfl

lemma stateA_profitable : stateA.profitableTrades = 0 := by
  rw [stateA, processSignal, updateDrawdown_profitableTrades,
    applySignal_buy_fill 0 (initState 100000) sigBuyA rfl haffA hlotsA]
  rfl

lemma stateA_unprofitable : stateA.unprofitableTrades = 0 := by
  rw [stateA, processSignal, updateDrawdown_unprofitableTrades,
    applySignal_buy_fill 0 (initState 100000) sigBuyA rfl haffA hlotsA]
  rfl

lemma stateA_totalProfit : stateA.totalProfit = 0 := by
  rw [stateA, processSignal, updateDrawdown_totalProfit,
    applySignal_buy_fill 0 (initState 100000) sigBuyA rfl haffA hlotsA]
  rfl

lemma stateA_tradeLog : stateA.tradeLog
    = [{ symbol := "SBER", side := "buy", openPrice := 100,
         openTime := 0, closeTime := 0, closePrice := 0, profit := 0 }] := by
  rw [stateA, processSignal, updateDrawdown_tradeLog,
    applySignal_buy_fill 0 (initState 100000) sigBuyA rfl haffA hlotsA]
  rfl


/-! ## The drawdown at zero peak equity, and runs that never trade -/

lemma goGt_nan_left (x : GoFloat) : goGt .nan x = false := by cases x <;> rfl

lemma drawdownOf_zero : drawdownOf 0 0 = .nan := by
  rw [drawdownOf]
  norm_num [goDivQ, goMulPos]

lemma updateDrawdown_fixed (s : SimState) (h1 : availOf s.portfolio = 0)
    (h2 : s.maxEquity = 0) : updateDrawdown s = s := by
  simp only [updateDrawdown]
  have hcond : ¬(s.maxEquity < availOf s.portfolio) := by
    rw [h1, h2]
    exact lt_irrefl 0
  rw [if_neg hcond]
  have hdd : drawdownOf s.maxEquity (availOf s.portfolio) = .nan := by
    rw [h1, h2]
    exact drawdownOf_zero
  rw [hdd, goGt_nan_left]
  rfl

lemma processSignal_zero_fixed (t : ℤ) (s : SimState) (sg : TradingSignal)
    (hp : 0 < sg.price) (h1 : availOf s.portfolio = 0)
    (hpos : s.portfolio.positions = []) (h2 : s.maxEquity = 0) :
    processSignal t s sg = s := by
  rw [processSignal]
  have hskip : applySignal t s sg = s := by
    by_cases hb : sg.side = "buy" ∧ sg.price ≤ availOf s.portfolio
    · exfalso
      have h3 := hb.2
      rw [h1] at h3
      linarith
    · by_cases hsell : sg.side = "sell"
      · refine applySignal_sell_none t s sg hsell ?_
        rw [hpos]
        rfl
      · exact applySignal_skip t s sg hb hsell
  rw [hskip]
  exact updateDrawdown_fixed s h1 h2

lemma runStates_zero_capital (strat : Strategy) (bars : List Candle)
    (hp : PosPrices strat) : runStates strat bars 0 = initState 0 := by
  rw [runStates]
  refine foldl_preserves (fun s => s = initState 0) _ ?_ _ _ rfl
  intro s i hs
  subst hs
  rw [processBar]
  cases hres : strat (quoteAt bars i) (historyArg bars i) (initState 0).portfolio with
  | none => rfl
  | some sigs =>
    refine foldl_preserves_mem (fun s2 => s2 = initState 0) _ sigs ?_ _ rfl
    intro s2 sg hsg hs2
    subst hs2
    exact processSignal_zero_fixed _ _ sg (hp _ _ _ sigs hres sg hsg)
      (initState_avail 0) (initState_positions 0) rfl

lemma runStates_stratNone (bars : List Candle) (c0 : ℚ) :
    runStates stratNone bars c0 = initState c0 := by
  rw [runStates]
  refine foldl_preserves (fun s => s = initState c0) _ ?_ _ _ rfl
  intro s i hs
  subst hs
  rfl

/-! ## The double-buy run -/

lemma lotsA2 : lotsOf stateA.portfolio sigBuyA = 9 := by
  rw [lotsOf, stateA_avail]
  norm_num [sigBuyA]

lemma stateA2_positions :
    (processSignal 0 stateA sigBuyA).portfolio.positions =
      [{ symbol := "SBER", quantity := 10, averagePrice := 100, openDate := 0 },
       { symbol := "SBER", quantity := 9, averagePrice := 100, openDate := 0 }] := by
  rw [processSignal, updateDrawdown_portfolio,
    applySignal_buy_fill 0 stateA sigBuyA rfl
      (by rw [stateA_avail]; norm_num [sigBuyA]) (by rw [lotsA2]; norm_num)]
  show stateA.portfolio.positions ++ _ = _
  rw [stateA_positions, lotsA2]
  rfl

lemma runStates_bars12 :
    runStates stratBuy bars12 100000 = processSignal 0 stateA sigBuyA := by
  rfl

lemma runStates_bars12_countP :
    List.countP (fun p => p.symbol == "SBER")
      (runStates stratBuy bars12 100000).portfolio.positions = 2 := by
  rw [runStates_bars12, stateA2_positions]
  rfl


/-! ## Claim C1: no look-ahead -/

/-- The trade record used in the one-trade Sharpe scenario. -/
def tradeInfo50 : TradeInfo :=
  { symbol := "SBER", openTime := 0, openPrice := 100, closeTime := 0,
    closePrice := 150, profit := 50, side := "sell" }

/-- C1 counterexample: the claim says the Strategy at step `i` is invoked
with the slice `[0, i)` only.  At step 10 of the concrete run the history
argument is the full eleven-bar series, not the ten-bar slice, and the
detector strategy produces different signals on two series that agree
strictly below index 10 — the signals at step 10 depend on the bar at
index 10 of the history. -/
theorem C1_lookahead_counterexample :
    List.take 10 c1bars = List.take 10 c2bars ∧
    historyArg c1bars 10 ≠ List.take 10 c1bars ∧
    stratDetect (quoteAt c1bars 10) (historyArg c1bars 10)
        (initState 100000).portfolio = some [sigBuyA] ∧
    stratDetect (quoteAt c2bars 10) (historyArg c2bars 10)
        (initState 100000).portfolio = some [] := by
  refine ⟨rfl, ?_, ?_, ?_⟩
  · intro h
    have h2 := congrArg List.length h
    simp [c1bars, historyArg] at h2
  · rw [stratDetect]
    norm_num [historyArg, c1bars, mkCandle]
  · rw [stratDetect]
    norm_num [historyArg, c2bars, mkCandle]

/-- C1 amended: at every step `i` the replay loop hands the Strategy the
complete bar series (the source passes `&historyDf`), so whenever `i` is a
valid index the history received at step `i` contains the bar with index
`i` itself. -/
theorem C1_history_is_full_series (bars : List Candle) (i : ℕ) (h : i < bars.length) :
    historyArg bars i = bars ∧ bars.get ⟨i, h⟩ ∈ historyArg bars i :=
  ⟨rfl, List.get_mem bars i h⟩

/-- C1 witness: the amended statement at the concrete eleven-bar series and
step 10. -/
theorem C1_history_witness :
    10 < c1bars.length ∧ historyArg c1bars 10 = c1bars :=
  ⟨by simp [c1bars], (C1_history_is_full_series c1bars 10 (by simp [c1bars])).1⟩

/-! ## Claim C2: buy sizing and fills -/

/-- C2 counterexample: the claim prescribes, for every buy at price P > 0
with cash C, lot size `floor((C * 0.01) / P)` and a fill whenever that
value is non-zero.  At C = -10000, P = 100 the prescribed lot size is -1,
yet the simulator rejects the signal (its affordability guard
`available >= price` fails first): cash, positions and counters are all
unchanged, contradicting the claimed fill. -/
theorem C2_buy_counterexample :
    lotsOf (initState (-10000)).portfolio sigBuyA = -1 ∧
    availOf (processSignal 0 (initState (-10000)) sigBuyA).portfolio = -10000 ∧
    ((-10000 : ℚ) ≠ -10000 - sigBuyA.price * ((-1 : ℤ) : ℚ)) ∧
    (processSignal 0 (initState (-10000)) sigBuyA).portfolio.positions = [] ∧
    (processSignal 0 (initState (-10000)) sigBuyA).totalTrades = 0 := by
  have hlots : lotsOf (initState (-10000)).portfolio sigBuyA = -1 := by
    rw [lotsOf, initState_avail]
    norm_num [sigBuyA]
  have hskip : applySignal 0 (initState (-10000)) sigBuyA = initState (-10000) := by
    refine applySignal_skip 0 _ _ ?_ ?_
    · rintro ⟨-, habs⟩
      rw [initState_avail] at habs
      norm_num [sigBuyA] at habs
    · simp [sigBuyA]
  refine ⟨hlots, ?_, by norm_num [sigBuyA], ?_, ?_⟩
  · rw [processSignal, availOf_updateDrawdown, hskip, initState_avail]
  · rw [processSignal, updateDrawdown_portfolio, hskip, initState_positions]
  · rw [processSignal, updateDrawdown_totalTrades, hskip]
    rfl

/-- C2 amended: for every buy signal with price P > 0 processed when the
available RUB cash is C, the simulator fills exactly when P ≤ C and
`lots = floor((C * 0.01) / P)` is non-zero (for C ≥ 0 the extra guard
P ≤ C is subsumed by `lots ≠ 0`): on a fill, available becomes
C - P·lots, a Position with quantity `lots` and average price P is
appended, a buy TradeRecord with zeroed close fields is appended, and the
total-trade counter increments; otherwise the signal is rejected with
cash, positions, trade log and all counters unchanged. -/
theorem C2_buy_semantics (t : ℤ) (s : SimState) (sg : TradingSignal)
    (hside : sg.side = "buy") (hp : 0 < sg.price) :
    ((sg.price ≤ availOf s.portfolio ∧ lotsOf s.portfolio sg ≠ 0) →
      availOf (processSignal t s sg).portfolio
          = availOf s.portfolio - sg.price * ((lotsOf s.portfolio sg : ℤ) : ℚ) ∧
      (processSignal t s sg).portfolio.positions = s.portfolio.positions ++
        [{ symbol := sg.symbol, quantity := lotsOf s.portfolio sg,
           averagePrice := sg.price, openDate := t }] ∧
      (processSignal t s sg).tradeLog = s.tradeLog ++
        [{ symbol := sg.symbol, side := "buy", openPrice := sg.price,
           openTime := t, closeTime := 0, closePrice := 0, profit := 0 }] ∧
      (processSignal t s sg).totalTrades = s.totalTrades + 1 ∧
      (processSignal t s sg).profitableTrades = s.profitableTrades ∧
      (processSignal t s sg).unprofitableTrades = s.unprofitableTrades ∧
      (processSignal t s sg).totalProfit = s.totalProfit) ∧
    ((availOf s.portfolio < sg.price ∨ lotsOf s.portfolio sg = 0) →
      availOf (processSignal t s sg).portfolio = availOf s.portfolio ∧
      (processSignal t s sg).portfolio.positions = s.portfolio.positions ∧
      (processSignal t s sg).tradeLog = s.tradeLog ∧
      (processSignal t s sg).totalTrades = s.totalTrades ∧
      (processSignal t s sg).profitableTrades = s.profitableTrades ∧
      (processSignal t s sg).unprofitableTrades = s.unprofitableTrades ∧
      (processSignal t s sg).totalProfit = s.totalProfit) := by
  constructor
  · rintro ⟨haff, hlots⟩
    rw [processSignal, availOf_updateDrawdown, updateDrawdown_portfolio,
      updateDrawdown_tradeLog, updateDrawdown_totalTrades,
      updateDrawdown_profitableTrades, updateDrawdown_unprofitableTrades,
      updateDrawdown_totalProfit, applySignal_buy_fill t s sg hside haff hlots]
    refine ⟨?_, rfl, rfl, rfl, rfl, rfl, rfl⟩
    simp only [availOf, mapUpdate_same]
  · intro hrej
    have hskip : applySignal t s sg = s := by
      rcases hrej with hlow | hlots
      · refine applySignal_skip t s sg ?_ ?_
        · rintro ⟨-, habs⟩
          linarith
        · rw [hside]
          simp
      · by_cases haff : sg.price ≤ availOf s.portfolio
        · exact applySignal_buy_reject t s sg hside haff hlots
        · refine applySignal_skip t s sg ?_ ?_
          · rintro ⟨-, habs⟩
            exact haff habs
          · rw [hside]
            simp
    rw [processSignal, availOf_updateDrawdown, updateDrawdown_portfolio,
      updateDrawdown_tradeLog, updateDrawdown_totalTrades,
      updateDrawdown_profitableTrades, updateDrawdown_unprofitableTrades,
      updateDrawdown_totalProfit, hskip]
    exact ⟨rfl, rfl, rfl, rfl, rfl, rfl, rfl⟩

/-- C2 witness: scenario A.  From 100,000 RUB a buy at price 100 computes
10 lots and leaves 99,000 RUB. -/
theorem C2_buy_witness :
    sigBuyA.side = "buy" ∧ (0 : ℚ) < sigBuyA.price ∧
    lotsOf (initState 100000).portfolio sigBuyA = 10 ∧
    availOf (processSignal 0 (initState 100000) sigBuyA).portfolio = 99000 := by
  refine ⟨rfl, by norm_num [sigBuyA], lotsA, ?_⟩
  have h := (C2_buy_semantics 0 (initState 100000) sigBuyA rfl
    (by norm_num [sigBuyA])).1 ⟨haffA, hlotsA⟩
  rw [h.1, lotsA, initState_avail]
  norm_num [sigBuyA]


/-! ## Claim C3: sell closes the first matching position -/

/-- C3: for a sell signal, when the open-position list is any
`pre ++ pos :: post` in which no entry of `pre` matches the signal symbol
with positive quantity and `pos` does, the simulator closes exactly `pos`:
cash is credited by price·quantity, the realised profit
`(price - averagePrice)·quantity` is added to total profit, the position is
removed, a sell TradeRecord carrying the full round trip is appended, the
total-trade counter increments, and exactly one of the
profitable (profit > 0) or unprofitable counters increments. -/
theorem C3_sell_closes_first_match (t : ℤ) (s : SimState) (sg : TradingSignal)
    (pre post : List Position) (pos : Position)
    (hside : sg.side = "sell")
    (hps : s.portfolio.positions = pre ++ pos :: post)
    (hpre : ∀ q ∈ pre, ¬(q.symbol = sg.symbol ∧ 0 < q.quantity))
    (hsym : pos.symbol = sg.symbol) (hq : 0 < pos.quantity) :
    availOf (processSignal t s sg).portfolio
        = availOf s.portfolio + sg.price * (pos.quantity : ℚ) ∧
    (processSignal t s sg).totalProfit
        = s.totalProfit + (sg.price - pos.averagePrice) * (pos.quantity : ℚ) ∧
    (processSignal t s sg).portfolio.positions = pre ++ post ∧
    (processSignal t s sg).tradeLog = s.tradeLog ++
      [{ symbol := sg.symbol, side := "sell", openPrice := pos.averagePrice,
         openTime := pos.openDate, closePrice := sg.price, closeTime := t,
         profit := (sg.price - pos.averagePrice) * (pos.quantity : ℚ) }] ∧
    (processSignal t s sg).totalTrades = s.totalTrades + 1 ∧
    (0 < (sg.price - pos.averagePrice) * (pos.quantity : ℚ) →
        (processSignal t s sg).profitableTrades = s.profitableTrades + 1 ∧
        (processSignal t s sg).unprofitableTrades = s.unprofitableTrades) ∧
    (¬0 < (sg.price - pos.averagePrice) * (pos.quantity : ℚ) →
        (processSignal t s sg).profitableTrades = s.profitableTrades ∧
        (processSignal t s sg).unprofitableTrades = s.unprofitableTrades + 1) := by
  have hfo : findOpen s.portfolio.positions sg.symbol = some (pos, pre ++ post) := by
    rw [hps]
    exact findOpen_first pre pos post sg.symbol hpre hsym hq
  rw [processSignal, availOf_updateDrawdown, updateDrawdown_portfolio,
    updateDrawdown_tradeLog, updateDrawdown_totalTrades,
    updateDrawdown_profitableTrades, updateDrawdown_unprofitableTrades,
    updateDrawdown_totalProfit, applySignal_sell_fill t s sg pos (pre ++ post) hside hfo]
  refine ⟨?_, rfl, rfl, rfl, rfl, ?_, ?_⟩
  · simp only [availOf, mapUpdate_same]
  · intro hpos
    constructor
    · show (if 0 < (sg.price - pos.averagePrice) * (pos.quantity : ℚ)
          then s.profitableTrades + 1 else s.profitableTrades) = _
      rw [if_pos hpos]
    · show (if 0 < (sg.price - pos.averagePrice) * (pos.quantity : ℚ)
          then s.unprofitableTrades else s.unprofitableTrades + 1) = _
      rw [if_pos hpos]
  · intro hpos
    constructor
    · show (if 0 < (sg.price - pos.averagePrice) * (pos.quantity : ℚ)
          then s.profitableTrades + 1 else s.profitableTrades) = _
      rw [if_neg hpos]
    · show (if 0 < (sg.price - pos.averagePrice) * (pos.quantity : ℚ)
          then s.unprofitableTrades else s.unprofitableTrades + 1) = _
      rw [if_neg hpos]

/-- C3 witness: scenario B.  Selling the 10-lot SBER position opened at 100
at price 110 yields profit 100, cash 100,100 and counters total = 2,
profitable = 1, unprofitable = 0. -/
theorem C3_sell_witness :
    availOf (processSignal 0 stateA sigSellB).portfolio = 100100 ∧
    (processSignal 0 stateA sigSellB).totalProfit = 100 ∧
    (processSignal 0 stateA sigSellB).totalTrades = 2 ∧
    (processSignal 0 stateA sigSellB).profitableTrades = 1 ∧
    (processSignal 0 stateA sigSellB).unprofitableTrades = 0 ∧
    (processSignal 0 stateA sigSellB).portfolio.positions = [] := by
  have h := C3_sell_closes_first_match 0 stateA sigSellB [] []
    { symbol := "SBER", quantity := 10, averagePrice := 100, openDate := 0 }
    rfl (by rw [stateA_positions]; rfl) (by intro q hq; simp at hq) rfl (by norm_num)
  obtain ⟨h1, h2, h3, h4, h5, h6, h7⟩ := h
  have hprofit : (0 : ℚ) < (sigSellB.price - (100 : ℚ)) * ((10 : ℤ) : ℚ) := by
    norm_num [sigSellB]
  refine ⟨?_, ?_, ?_, ?_, ?_, ?_⟩
  · rw [h1, stateA_avail]
    norm_num [sigSellB]
  · rw [h2, stateA_totalProfit]
    norm_num [sigSellB]
  · rw [h5, stateA_totalTrades]
  · rw [(h6 hprofit).1, stateA_profitable]
  · rw [(h6 hprofit).2, stateA_unprofitable]
  · rw [h3]
    rfl

/-! ## Claim C4: average profit at zero trades -/

/-- C4: the claim says a zero-trade run reports average profit as an
explicit 0/undefined flag rather than NaN.  The source computes
`totalProfit / float64(totalTrades)` with no guard (line 453): a run that
produces no trades reports `averageProfit = NaN` (0.0/0.0), which is not
the value 0. -/
theorem C4_averageProfit_nan :
    (RunBacktest stratNone bars11 100000).totalTrades = 0 ∧
    (RunBacktest stratNone bars11 100000).averageProfit = .nan ∧
    GoFloat.nan ≠ GoFloat.val 0 := by
  refine ⟨?_, ?_, by simp⟩
  · rw [RunBacktest]
    dsimp only
    rw [runStates_stratNone]
    rfl
  · rw [RunBacktest]
    dsimp only
    rw [runStates_stratNone]
    norm_num [initState, goDivQ]

/-! ## Claim C5: risk ratio at fewer than two trades -/

/-- C5: the claim says the Sharpe-style ratio returns 0 for any log with
fewer than two trades.  The source guards only the empty log
(lines 473, 488): for the empty log the ratio is 0, but for a single trade
with profit 50 the sample variance divides by n - 1 = 0 (0.0/0.0 = NaN),
the standard deviation is NaN, and the ratio is NaN — not 0. -/
theorem C5_sharpe_single_trade_nan :
    calculateSharpeRatio [] (0.02 : ℚ) = .val 0 ∧
    calculateSharpeRatio [tradeInfo50] (0.02 : ℚ) = .nan ∧
    GoFloat.nan ≠ GoFloat.val 0 := by
  refine ⟨rfl, ?_, by simp⟩
  rw [calculateSharpeRatio]
  norm_num [calculateStandardDeviation, calculateMean, goDivQ, goSqrt, goDivF, tradeInfo50]


/-! ## Claim C6: drawdown at zero peak equity -/

/-- C6 counterexample: the claim says the division by maxEquity is guarded
and a zero peak equity yields drawdown 0.  There is no guard: the drawdown
value computed at maxEquity = 0, equity = 0 is NaN (0.0/0.0 · 100), which
is not 0. -/
theorem C6_drawdown_nan_counterexample :
    drawdownOf 0 0 = .nan ∧ GoFloat.nan ≠ GoFloat.val 0 :=
  ⟨drawdownOf_zero, by simp⟩

/-- C6 amended: the division is unguarded — at peak equity 0 and equity 0
the computed drawdown is NaN, not 0; but because the update
`if drawdown > maxDrawdown` uses an IEEE comparison that is false for NaN,
`maxDrawdown` keeps its previous value, so a run started with capital 0 and
positive signal prices still reports MaxDrawdown = 0 and never NaN. -/
theorem C6_run_zero_capital (strat : Strategy) (bars : List Candle)
    (hp : PosPrices strat) :
    (RunBacktest strat bars 0).maxDrawdown = .val 0 ∧ drawdownOf 0 0 = .nan := by
  constructor
  · rw [RunBacktest]
    dsimp only
    rw [runStates_zero_capital strat bars hp]
    rfl
  · exact drawdownOf_zero

/-- C6 witness: the amended statement at the always-buying strategy over
twelve bars. -/
theorem C6_run_zero_witness :
    PosPrices stratBuy ∧ (RunBacktest stratBuy bars12 0).maxDrawdown = .val 0 :=
  ⟨stratBuy_posPrices, (C6_run_zero_capital stratBuy bars12 stratBuy_posPrices).1⟩

/-! ## Claim C7: one open position per symbol -/

/-- C7 counterexample: the claim says the ledger holds at most one open
Position per symbol.  In the concrete run that buys SBER on both visited
bars, the ledger afterwards holds two open SBER positions. -/
theorem C7_two_positions_counterexample :
    List.countP (fun p => p.symbol == "SBER")
      (runStates stratBuy bars12 100000).portfolio.positions = 2 ∧ ¬(2 ≤ 1) :=
  ⟨runStates_bars12_countP, by norm_num⟩

/-- C7 amended: the backtest simulator does not enforce the one-position
rule (only the excluded live loop does): a filled buy appends a new
Position unconditionally, so when an open position for the symbol already
exists the count for that symbol grows to at least two. -/
theorem C7_buy_appends_second_position (t : ℤ) (s : SimState) (sg : TradingSignal)
    (hside : sg.side = "buy")
    (haff : sg.price ≤ availOf s.portfolio) (hlots : lotsOf s.portfolio sg ≠ 0)
    (hdup : 1 ≤ List.countP (fun p => p.symbol == sg.symbol) s.portfolio.positions) :
    List.countP (fun p => p.symbol == sg.symbol)
        (processSignal t s sg).portfolio.positions
      = List.countP (fun p => p.symbol == sg.symbol) s.portfolio.positions + 1 ∧
    2 ≤ List.countP (fun p => p.symbol == sg.symbol)
        (processSignal t s sg).portfolio.positions := by
  rw [processSignal, updateDrawdown_portfolio,
    applySignal_buy_fill t s sg hside haff hlots]
  have hstep : List.countP (fun p => p.symbol == sg.symbol)
      (s.portfolio.positions ++
        [{ symbol := sg.symbol, quantity := lotsOf s.portfolio sg,
           averagePrice := sg.price, openDate := t }])
      = List.countP (fun p => p.symbol == sg.symbol) s.portfolio.positions + 1 := by
    rw [List.countP_append]
    simp
  refine ⟨hstep, ?_⟩
  rw [hstep]
  omega

/-- C7 witness: the second SBER buy at the scenario-A state raises the
SBER position count from 1 to 2. -/
theorem C7_buy_witness :
    1 ≤ List.countP (fun p => p.symbol == sigBuyA.symbol) stateA.portfolio.positions ∧
    2 ≤ List.countP (fun p => p.symbol == sigBuyA.symbol)
        (processSignal 0 stateA sigBuyA).portfolio.positions := by
  have hd : 1 ≤ List.countP (fun p => p.symbol == sigBuyA.symbol)
      stateA.portfolio.positions := by
    rw [stateA_positions]
    rfl
  exact ⟨hd, (C7_buy_appends_second_position 0 stateA sigBuyA rfl
    (by rw [stateA_avail]; norm_num [sigBuyA]) (by rw [lotsA2]; norm_num) hd).2⟩

/-! ## Claim C8: cash never negative -/

/-- C8: for every run with non-negative initial capital whose strategy only
emits signals with positive price, the available RUB cash is non-negative
at every observation point of the run — after every whole bar (j = 0) and
after every individual processed signal within a bar. -/
theorem C8_no_negative_cash (strat : Strategy) (bars : List Candle) (c0 : ℚ)
    (h0 : 0 ≤ c0) (hp : PosPrices strat) (k j : ℕ) :
    0 ≤ availOf (midState strat bars c0 k j).portfolio := by
  unfold midState
  cases hk : (barIndices bars.length)[k]? with
  | none => exact stateAfterBars_avail_nonneg strat bars c0 h0 hp k
  | some i =>
    dsimp only
    unfold barStepTake
    cases hres : strat (quoteAt bars i) (historyArg bars i)
        (stateAfterBars strat bars c0 k).portfolio with
    | none => exact stateAfterBars_avail_nonneg strat bars c0 h0 hp k
    | some sigs =>
      dsimp only
      refine foldl_preserves_mem (fun s2 => 0 ≤ availOf s2.portfolio) _ (sigs.take j)
        ?_ _ (stateAfterBars_avail_nonneg strat bars c0 h0 hp k)
      intro s2 sg hsg h2
      exact processSignal_avail_nonneg _ s2 sg
        (hp _ _ _ sigs hres sg (List.take_subset j sigs hsg)) h2

/-- C8 witness: the always-buying strategy from 100,000 RUB keeps cash
non-negative one signal into the second visited bar. -/
theorem C8_witness :
    (0 : ℚ) ≤ 100000 ∧ PosPrices stratBuy ∧
    0 ≤ availOf (midState stratBuy bars12 100000 1 1).portfolio :=
  ⟨by norm_num, stratBuy_posPrices,
    C8_no_negative_cash stratBuy bars12 100000 (by norm_num) stratBuy_posPrices 1 1⟩

/-! ## Claim C9: tracker monotonicity -/

/-- C9: across every run, maxEquity and maxDrawdown are monotonically
non-decreasing: for any two observation points in lexicographic order
(whole bars processed, then signals into the next bar), the earlier
maxEquity is ≤ the later one and the earlier maxDrawdown is ≤ the later
one under the IEEE order (which also certifies neither is NaN). -/
theorem C9_trackers_monotone (strat : Strategy) (bars : List Candle) (c0 : ℚ)
    (k j k' j' : ℕ) (h : k < k' ∨ (k = k' ∧ j ≤ j')) :
    (midState strat bars c0 k j).maxEquity
        ≤ (midState strat bars c0 k' j').maxEquity ∧
    goLe (midState strat bars c0 k j).maxDrawdown
        (midState strat bars c0 k' j').maxDrawdown = true :=
  midState_mono_lex strat bars c0 h

/-- C9 witness: the trackers at the start of the run are below the trackers
after the first visited bar of the concrete always-buying run. -/
theorem C9_witness :
    (0 < 1 ∨ (0 = 1 ∧ 0 ≤ 0)) ∧
    (midState stratBuy bars12 100000 0 0).maxEquity
        ≤ (midState stratBuy bars12 100000 1 0).maxEquity ∧
    goLe (midState stratBuy bars12 100000 0 0).maxDrawdown
        (midState stratBuy bars12 100000 1 0).maxDrawdown = true :=
  ⟨Or.inl Nat.zero_lt_one,
    C9_trackers_monotone stratBuy bars12 100000 0 0 1 0 (Or.inl Nat.zero_lt_one)⟩

/-! ## Claim C10: fills touch only the RUB available balance -/

/-- C10: processing any signal leaves every balance entry for a currency
other than "RUB" unchanged, and leaves the Blocked and Value fields of the
"RUB" entry unchanged — only the Available field of the "RUB" entry can
move. -/
theorem C10_rub_only_frame (t : ℤ) (s : SimState) (sg : TradingSignal) (c : String) :
    (c ≠ "RUB" →
        (processSignal t s sg).portfolio.balances c = s.portfolio.balances c) ∧
    ((processSignal t s sg).portfolio.balances "RUB").blocked
        = (s.portfolio.balances "RUB").blocked ∧
    ((processSignal t s sg).portfolio.balances "RUB").value
        = (s.portfolio.balances "RUB").value :=
  ⟨fun hc => (processSignal_balances_frame t s sg).1 c hc,
   (processSignal_balances_frame t s sg).2.1,
   (processSignal_balances_frame t s sg).2.2⟩

/-- C10 witness: the scenario-A buy leaves the "USD" balance entry
untouched. -/
theorem C10_witness :
    ("USD" : String) ≠ "RUB" ∧
    (processSignal 0 (initState 100000) sigBuyA).portfolio.balances "USD"
      = (initState 100000).portfolio.balances "USD" :=
  ⟨by simp,
    (C10_rub_only_frame 0 (initState 100000) sigBuyA "USD").1 (by simp)⟩

end TradingBot
